import Mathlib

/-!
# Verification of the posixmq message-queue wrapper

A shallow embedding of `src/lib.rs` of the `posixmq` crate, together with
theorems settling the specification claims about it.

Modelling conventions:
* The primary build target is 64-bit Linux: `time_t` and `KernelLong` are
  `i64`, `usize` is `u64`.  Machine integers are modelled as `Int`/`Nat`
  with explicit wrapping (`wrap64`) exactly where the Rust code performs an
  `as` cast or an overflow-permitted operation (the crate compiles
  `deadline_to_realtime` with `#[allow(arithmetic_overflow)]`, i.e. release
  / wrapping semantics).
* `SystemTime` values are modelled as the exact signed number of
  nanoseconds since the Unix epoch (`duration_since(UNIX_EPOCH)` is exact).
* Kernel calls (`mq_open`, `mq_send`, `fcntl`, ...) are nondeterministic
  externals; they are modelled as explicit parameters carrying their
  outcome, and interruptible calls as a list of successive outcomes.
* `cfg(target_os = ...)` conditionals are modelled by an explicit `Target`
  parameter where a claim depends on them; elsewhere the Linux build is
  embedded.
-/

/-- `i64::MIN`, the minimum of the kernel's `time_t` / `long` on the
modelled target. -/
def i64Min : Int := -9223372036854775808

/-- `i64::MAX`, the maximum of the kernel's `time_t` / `long` on the
modelled target. -/
def i64Max : Int := 9223372036854775807

/-- Wrap an unbounded integer into the `i64` range, the semantics of Rust
`as i64` casts, `wrapping_add` and overflow in release builds. -/
def wrap64 (x : Int) : Int :=
  (x + 9223372036854775808) % 18446744073709551616 - 9223372036854775808

/-- One second in nanoseconds (the `NANO` constant of `timeout_to_realtime`). -/
def NANO : Int := 1000000000

/-- `libc::timespec` restricted to the fields the crate uses. -/
structure Timespec where
  tv_sec : Int
  tv_nsec : Int
deriving DecidableEq, Repr

/-- The crate's error kinds (`std::io::ErrorKind` values it mentions). -/
inductive ErrorKind where
  | notFound
  | alreadyExists
  | permissionDenied
  | invalidInput
  | wouldBlock
  | timedOut
  | interrupted
  | other
deriving DecidableEq, Repr

/-- `std::io::Error`, reduced to the kind and message the crate constructs
or inspects. -/
structure IOError where
  kind : ErrorKind
  msg : String
deriving DecidableEq, Repr

instance {ε α : Type} [DecidableEq ε] [DecidableEq α] : DecidableEq (Except ε α) :=
  fun a b =>
    match a, b with
    | .ok x, .ok y =>
      if h : x = y then .isTrue (h ▸ rfl) else .isFalse (fun he => h (Except.ok.inj he))
    | .error x, .error y =>
      if h : x = y then .isTrue (h ▸ rfl) else .isFalse (fun he => h (Except.error.inj he))
    | .ok _, .error _ => .isFalse (fun he => Except.noConfusion he)
    | .error _, .ok _ => .isFalse (fun he => Except.noConfusion he)

/-- Embedding of `deadline_to_realtime` (src/lib.rs lines 620-661).
The input is the deadline as signed nanoseconds since the Unix epoch.
`Except.error` is the "saturated timespec" return of the Rust
`Result<timespec, timespec>`. -/
def deadline_to_realtime (t : Int) : Except Timespec Timespec :=
  if 0 ≤ t then
    -- Ok(expires) branches: expires.as_secs() = t / NANO (t ≥ 0)
    if i64Max < t / NANO then .error ⟨i64Max, 0⟩
    else .ok ⟨t / NANO, t % NANO⟩
  else
    -- Err(earlier) branches: earlier.duration() = -t > 0
    if (i64Max + 1) * NANO < (-t) then
      -- new_timespec(time_t::MAX + 1, 0); the addition wraps to time_t::MIN
      .error ⟨wrap64 (i64Max + 1), 0⟩
    else if (-t) % NANO = 0 then
      -- -(before.as_secs() as time_t): both cast and negation wrap
      .ok ⟨wrap64 (-(wrap64 ((-t) / NANO))), 0⟩
    else
      -- secs = -(before.as_secs() as time_t) - 1; nsecs = NANO - subsec
      .ok ⟨wrap64 (wrap64 (-(wrap64 ((-t) / NANO))) - 1), NANO - (-t) % NANO⟩

theorem wrap64_eq_self {x : Int} (h1 : i64Min ≤ x) (h2 : x ≤ i64Max) :
    wrap64 x = x := by
  simp only [wrap64, i64Min, i64Max] at h1 h2 ⊢
  omega

/-- Every `Ok` result of `deadline_to_realtime` is the floor-division pair
of the input by `NANO`, and its seconds lie in the `time_t` range. -/
theorem deadline_ok_characterization {t : Int} {ts : Timespec}
    (h : deadline_to_realtime t = .ok ts) :
    ts.tv_sec = t / NANO ∧ ts.tv_nsec = t % NANO ∧
      i64Min ≤ ts.tv_sec ∧ ts.tv_sec ≤ i64Max := by
  unfold deadline_to_realtime at h
  simp only [NANO, i64Max, i64Min, wrap64] at h ⊢
  split at h
  · split at h
    · exact absurd h (by simp)
    · rw [Except.ok.injEq] at h
      subst h
      dsimp only
      omega
  · split at h
    · exact absurd h (by simp)
    · split at h
      · rw [Except.ok.injEq] at h
        subst h
        dsimp only
        omega
      · rw [Except.ok.injEq] at h
        subst h
        dsimp only
        omega

/-- Claim C4: for every representable wall-clock point (including points
before the epoch), `deadline_to_realtime` returns `Ok (secs, nsecs)` with
`0 ≤ nsecs < 1e9` and `secs * 1e9 + nsecs` equal to the signed number of
nanoseconds since the epoch, and the mapping is monotone in the
lexicographic order on `(secs, nsecs)`. -/
theorem deadline_exact_and_monotone (t t' : Int) (ts ts' : Timespec)
    (h : deadline_to_realtime t = .ok ts) (h' : deadline_to_realtime t' = .ok ts') :
    (0 ≤ ts.tv_nsec ∧ ts.tv_nsec < NANO ∧ ts.tv_sec * NANO + ts.tv_nsec = t) ∧
    (t ≤ t' →
      ts.tv_sec < ts'.tv_sec ∨ (ts.tv_sec = ts'.tv_sec ∧ ts.tv_nsec ≤ ts'.tv_nsec)) := by
  obtain ⟨e1, e2, _, _⟩ := deadline_ok_characterization h
  obtain ⟨e1', e2', _, _⟩ := deadline_ok_characterization h'
  simp only [NANO] at *
  constructor
  · rw [e1, e2]
    omega
  · intro hle
    rw [e1, e2, e1', e2']
    omega

theorem deadline_exact_and_monotone_witness :
    deadline_to_realtime (-2500000000) = Except.ok ⟨-3, 500000000⟩ ∧
    deadline_to_realtime 1500000000 = Except.ok ⟨1, 500000000⟩ ∧
    ((0 ≤ (500000000 : Int) ∧ (500000000 : Int) < NANO ∧
        (-3 : Int) * NANO + 500000000 = -2500000000) ∧
      ((-2500000000 : Int) ≤ 1500000000 →
        (-3 : Int) < 1 ∨ ((-3 : Int) = 1 ∧ (500000000 : Int) ≤ 500000000))) := by
  refine ⟨by decide, by decide, ?_⟩
  exact deadline_exact_and_monotone (-2500000000) 1500000000 ⟨-3, 500000000⟩
    ⟨1, 500000000⟩ (by decide) (by decide)

/-- Claim C2 (amended): a wall-clock point whose whole-second count since
the epoch exceeds `time_t::MAX` (equivalently, a point at least
`time_t::MAX + 1` seconds after the epoch) yields the saturated value
`(time_t::MAX, 0)`, and a point more than `time_t::MAX + 1` seconds before
the epoch yields `(time_t::MIN, 0)`; both are well-defined results (the
saturated payload of the `Err` variant) under the crate's
release/wrapping semantics. -/
theorem deadline_saturates (t : Int) :
    ((i64Max + 1) * NANO ≤ t → deadline_to_realtime t = .error ⟨i64Max, 0⟩) ∧
    (t < -((i64Max + 1) * NANO) → deadline_to_realtime t = .error ⟨i64Min, 0⟩) := by
  constructor
  · intro h
    have h0 : 0 ≤ t := by simp only [i64Max, NANO] at h; omega
    have h1 : i64Max < t / NANO := by simp only [i64Max, NANO] at h ⊢; omega
    simp only [deadline_to_realtime, if_pos h0, if_pos h1]
  · intro h
    have h0 : ¬ (0 ≤ t) := by simp only [i64Max, NANO] at h; omega
    have h1 : (i64Max + 1) * NANO < (-t) := by simp only [i64Max, NANO] at h ⊢; omega
    simp only [deadline_to_realtime, if_neg h0, if_pos h1]
    decide

theorem deadline_saturates_witness :
    ((i64Max + 1) * NANO ≤ 9223372036854775808000000000 ∧
      deadline_to_realtime 9223372036854775808000000000 = .error ⟨i64Max, 0⟩) ∧
    ((-9223372036854775809000000000 : Int) < -((i64Max + 1) * NANO) ∧
      deadline_to_realtime (-9223372036854775809000000000) = .error ⟨i64Min, 0⟩) :=
  ⟨⟨by decide, (deadline_saturates 9223372036854775808000000000).1 (by decide)⟩,
   ⟨by decide, (deadline_saturates (-9223372036854775809000000000)).2 (by decide)⟩⟩

/-- Claim C2 fails as stated: the point `time_t::MAX` seconds plus half a
second after the epoch is "more than `time_t::MAX` seconds after the
epoch", yet it does not yield the saturated value `(time_t::MAX, 0)` — it
is still representable and yields `(time_t::MAX, 500000000)`. -/
theorem deadline_saturates_cex :
    i64Max * NANO < i64Max * NANO + 500000000 ∧
    deadline_to_realtime (i64Max * NANO + 500000000) ≠ .error ⟨i64Max, 0⟩ ∧
    deadline_to_realtime (i64Max * NANO + 500000000) ≠ .ok ⟨i64Max, 0⟩ ∧
    deadline_to_realtime (i64Max * NANO + 500000000) = .ok ⟨i64Max, 500000000⟩ := by
  refine ⟨by decide, by decide, by decide, by decide⟩

/-- `std::time::Duration`: whole seconds (a `u64`) and subsecond
nanoseconds (always `< 1e9` in Rust). -/
structure Duration where
  secs : Nat
  nanos : Nat
deriving DecidableEq, Repr

/-- Embedding of `timeout_to_realtime` (src/lib.rs lines 665-697).
`now_t` is `SystemTime::now()` as signed nanoseconds since the epoch.
The sequence of assignments

  expires.tv_sec = now.tv_sec.wrapping_add(timeout.as_secs() as time_t);
  expires.tv_nsec += timeout.subsec_nanos() as KernelLong;
  expires.tv_sec = expires.tv_sec.wrapping_add(expires.tv_nsec / NANO);
  expires.tv_nsec %= NANO;

is inlined below (`tv_nsec` of an `Ok` of `deadline_to_realtime` is
non-negative, so truncating and euclidean division agree). -/
def timeout_to_realtime (now_t : Int) (timeout : Duration) : Except IOError Timespec :=
  match deadline_to_realtime now_t with
  | .ok now =>
    if i64Max < (timeout.secs : Int) ∨
        wrap64 (wrap64 (now.tv_sec + wrap64 (timeout.secs : Int)) +
          (now.tv_nsec + (timeout.nanos : Int)) / NANO) < now.tv_sec then
      .error ⟨.invalidInput, "timeout is too long"⟩
    else
      .ok ⟨wrap64 (wrap64 (now.tv_sec + wrap64 (timeout.secs : Int)) +
             (now.tv_nsec + (timeout.nanos : Int)) / NANO),
           (now.tv_nsec + (timeout.nanos : Int)) % NANO⟩
  | .error _ => .error ⟨.other, "system time is not representable"⟩

/-- Claim C3: for every timeout duration, `timeout_to_realtime` fails with
an `Other` error when the current wall-clock time is not representable;
otherwise it fails with `InvalidInput` exactly when the duration's whole
seconds exceed `time_t::MAX` or the addition overflows the seconds range
(the code detects this by the wrapped post-addition seconds comparing less
than the pre-addition seconds; the detection is complete); otherwise it
returns `Ok` with a deadline equal to now plus the duration, nanoseconds
normalized into `[0, 1e9)` with the carry propagated into seconds. -/
theorem timeout_realtime_spec (now_t : Int) (d : Duration)
    (hnanos : d.nanos < 1000000000) :
    (∀ sat, deadline_to_realtime now_t = .error sat →
      timeout_to_realtime now_t d = .error ⟨.other, "system time is not representable"⟩) ∧
    (∀ now, deadline_to_realtime now_t = .ok now →
      (timeout_to_realtime now_t d = .error ⟨.invalidInput, "timeout is too long"⟩ ↔
        (i64Max < (d.secs : Int) ∨
          i64Max < now.tv_sec + (d.secs : Int) + (now.tv_nsec + (d.nanos : Int)) / NANO))) ∧
    (∀ ts, timeout_to_realtime now_t d = .ok ts →
      ts.tv_sec * NANO + ts.tv_nsec = now_t + ((d.secs : Int) * NANO + (d.nanos : Int)) ∧
      0 ≤ ts.tv_nsec ∧ ts.tv_nsec < NANO) := by
  refine ⟨?_, ?_, ?_⟩
  · intro sat hsat
    simp only [timeout_to_realtime, hsat]
  · intro now hnow
    obtain ⟨e1, e2, r1, r2⟩ := deadline_ok_characterization hnow
    simp only [NANO] at e1 e2
    simp only [i64Min] at r1
    simp only [i64Max] at r2
    simp only [timeout_to_realtime, hnow]
    split
    · rename_i hcond
      simp only [i64Max, NANO, wrap64] at hcond ⊢
      simp only [true_iff]
      omega
    · rename_i hcond
      simp only [i64Max, NANO, wrap64] at hcond ⊢
      simp only [reduceCtorEq, false_iff]
      omega
  · intro ts hts
    cases hnow : deadline_to_realtime now_t with
    | error sat =>
      simp only [timeout_to_realtime, hnow, reduceCtorEq] at hts
    | ok now =>
      obtain ⟨e1, e2, r1, r2⟩ := deadline_ok_characterization hnow
      simp only [NANO] at e1 e2
      simp only [i64Min] at r1
      simp only [i64Max] at r2
      simp only [timeout_to_realtime, hnow] at hts
      split at hts
      · exact absurd hts (by simp)
      · rename_i hcond
        rw [Except.ok.injEq] at hts
        subst hts
        dsimp only
        simp only [i64Max, NANO, wrap64] at hcond ⊢
        omega

theorem timeout_realtime_spec_witness :
    (500 : Nat) < 1000000000 ∧
    timeout_to_realtime 0 ⟨1, 500⟩ = .ok ⟨1, 500⟩ ∧
    ((1 : Int) * NANO + (500 : Int) = 0 + (((1 : Nat) : Int) * NANO + ((500 : Nat) : Int)) ∧
      (0 : Int) ≤ 500 ∧ (500 : Int) < NANO) := by
  refine ⟨by norm_num, by decide, ?_⟩
  exact (timeout_realtime_spec 0 ⟨1, 500⟩ (by norm_num)).2.2 ⟨1, 500⟩ (by decide)

/-- The namespace separator byte `b'/'`. -/
def sep : UInt8 := 47

/-- `CStr::from_bytes_with_nul` succeeds exactly when the byte slice has a
single nul byte, in the final position. -/
def cstr_from_bytes_with_nul_ok (b : List UInt8) : Bool :=
  b.getLast? == some 0 && !(b.dropLast.contains 0)

/-- The byte content of the `c_bytes` buffer built by `with_name_as_cstr`
(src/lib.rs lines 272-290): one prepended separator, the name with one
leading separator stripped, and a nul terminator.  (The short/long buffer
distinction of the source affects only where the bytes live, not their
value.) -/
def c_bytes_of (name : List UInt8) : List UInt8 :=
  sep :: (if name.head? == some sep then name.tail else name) ++ [0]

/-- Embedding of `with_name_as_cstr` (src/lib.rs lines 272-298): `f` is the
continuation receiving the encoded, nul-terminated name. -/
def with_name_as_cstr {R : Type} (name : List UInt8)
    (f : List UInt8 → Except IOError R) : Except IOError R :=
  if cstr_from_bytes_with_nul_ok (c_bytes_of name) then f (c_bytes_of name)
  else .error ⟨.invalidInput, "contains nul byte"⟩

theorem cstr_ok_c_bytes (name : List UInt8) :
    cstr_from_bytes_with_nul_ok (c_bytes_of name) =
      !((if name.head? == some sep then name.tail else name).contains 0) := by
  unfold cstr_from_bytes_with_nul_ok c_bytes_of
  rw [show ∀ l : List UInt8, sep :: l ++ [0] = (sep :: l) ++ [0] from fun _ => rfl]
  rw [List.getLast?_concat, List.dropLast_concat]
  simp [List.contains_cons, sep]

/-- `OpenOptions` (src/lib.rs lines 304-310): raw open flags, permission
mode, and the requested capacity / maximum message length. -/
structure OpenOptions where
  flags : Int
  mode : Nat
  capacity : Nat
  max_msg_len : Nat
deriving DecidableEq, Repr

/-- `libc::mq_attr`; the fields are the kernel's signed `long`. -/
structure MqAttr where
  mq_flags : Int
  mq_maxmsg : Int
  mq_msgsize : Int
  mq_curmsgs : Int
deriving DecidableEq, Repr

/-- The capacities argument `open_c` builds for `mq_open` (src/lib.rs
lines 481-488): `none` models the null pointer, `some` the descriptor
populated from a `mem::zeroed()` base.  The `as KernelLong` casts of the
`usize` fields wrap. -/
def open_c_capacities (opts : OpenOptions) : Option MqAttr :=
  if opts.capacity ≠ 0 ∨ opts.max_msg_len ≠ 0 then
    some ⟨0, wrap64 opts.capacity, wrap64 opts.max_msg_len, 0⟩
  else none

/-- Embedding of `OpenOptions::open_c` (src/lib.rs lines 474-505) for the
Linux build (the NetBSD/DragonFly close-on-exec compensation of lines
498-502 is compiled out there).  `mq_open` is the kernel call, taking the
encoded name, the flags, the permissions (`opts.mode as c_int`) and the
capacities pointer; its `Except` result folds in the `-1` /
`last_os_error` convention of the source. -/
def OpenOptions.open_c (opts : OpenOptions) (name : List UInt8)
    (mq_open : List UInt8 → Int → Nat → Option MqAttr → Except IOError Int) :
    Except IOError Int :=
  mq_open name opts.flags opts.mode (open_c_capacities opts)

/-- Embedding of `OpenOptions::open` / its inner `open_slice` (src/lib.rs
lines 448-453). -/
def OpenOptions.open_slice (opts : OpenOptions) (name : List UInt8)
    (mq_open : List UInt8 → Int → Nat → Option MqAttr → Except IOError Int) :
    Except IOError Int :=
  with_name_as_cstr name (fun c => opts.open_c c mq_open)

/-- Embedding of `remove_queue` / its inner `remove_queue_slice`
(src/lib.rs lines 524-529); `mq_unlink` is the kernel unlink call
(`remove_queue_c`). -/
def remove_queue (name : List UInt8)
    (mq_unlink : List UInt8 → Except IOError Unit) : Except IOError Unit :=
  with_name_as_cstr name mq_unlink

theorem strip_keeps_nul {name : List UInt8} (h : name.contains 0 = true) :
    (if name.head? == some sep then name.tail else name).contains 0 = true := by
  cases name with
  | nil => simp at h
  | cons a l =>
    by_cases ha : a = sep
    · subst ha
      simp only [List.head?_cons, beq_self_eq_true, if_pos, List.tail_cons]
      simp only [List.contains_cons] at h
      rcases Bool.or_eq_true_iff.mp h with h1 | h1
      · exact absurd (by simpa using h1) (by decide : ¬ (0 : UInt8) = sep)
      · exact h1
    · simpa [List.head?_cons, ha] using h

theorem strip_keeps_nul_free {name : List UInt8} (h : name.contains 0 = false) :
    (if name.head? == some sep then name.tail else name).contains 0 = false := by
  cases name with
  | nil => simp
  | cons a l =>
    by_cases ha : a = sep
    · subst ha
      simp only [List.head?_cons, beq_self_eq_true, if_pos, List.tail_cons]
      simp only [List.contains_cons, Bool.or_eq_false_iff] at h
      exact h.2
    · simpa [List.head?_cons, ha] using h

/-- Claim C6: for every byte name containing an embedded nul byte,
`open` and `remove_queue` fail with an `InvalidInput` error, and the
kernel open/unlink call is never issued for that name (the result is this
same error for every possible kernel behaviour, so no kernel outcome can
influence it). -/
theorem nul_name_rejected (name : List UInt8) (hnul : name.contains 0 = true) :
    (∀ (R : Type) (f : List UInt8 → Except IOError R),
      with_name_as_cstr name f = .error ⟨.invalidInput, "contains nul byte"⟩) ∧
    (∀ opts mq_open,
      OpenOptions.open_slice opts name mq_open =
        .error ⟨.invalidInput, "contains nul byte"⟩) ∧
    (∀ mq_unlink,
      remove_queue name mq_unlink = .error ⟨.invalidInput, "contains nul byte"⟩) := by
  have hko : cstr_from_bytes_with_nul_ok (c_bytes_of name) = false := by
    rw [cstr_ok_c_bytes, strip_keeps_nul hnul]
    rfl
  have hbase : ∀ (R : Type) (f : List UInt8 → Except IOError R),
      with_name_as_cstr name f = .error ⟨.invalidInput, "contains nul byte"⟩ := by
    intro R f
    unfold with_name_as_cstr
    rw [hko]
    simp
  exact ⟨hbase, fun opts mq_open => hbase _ _, fun mq_unlink => hbase _ _⟩

theorem nul_name_rejected_witness :
    ([113, 0, 117] : List UInt8).contains 0 = true ∧
    remove_queue [113, 0, 117] (fun _ => .ok ()) =
      .error ⟨.invalidInput, "contains nul byte"⟩ :=
  ⟨by decide, (nul_name_rejected [113, 0, 117] (by decide)).2.2 (fun _ => .ok ())⟩

/-- Claim C7 (amended): for every nul-free byte name that does not already
begin with the separator, the encoded name for it equals the encoded name
for `'/'` followed by it; the encoded name always consists of one
prepended `'/'`, the once-separator-stripped name bytes and a terminating
nul, and this encoded name is exactly what the kernel call receives.  (As
stated the claim fails for names already beginning with `'/'`: only one
leading separator is stripped, so prepending another one yields a
different encoded name.) -/
theorem name_normalization (name : List UInt8) (hnul : name.contains 0 = false) :
    (name.head? ≠ some sep → c_bytes_of (sep :: name) = c_bytes_of name) ∧
    c_bytes_of name =
      sep :: (if name.head? == some sep then name.tail else name) ++ [0] ∧
    (∀ (R : Type) (f : List UInt8 → Except IOError R),
      with_name_as_cstr name f = f (c_bytes_of name)) := by
  refine ⟨?_, rfl, ?_⟩
  · intro hhead
    unfold c_bytes_of
    simp only [List.head?_cons, beq_self_eq_true, if_pos, List.tail_cons]
    rw [if_neg (by simpa using hhead)]
  · intro R f
    unfold with_name_as_cstr
    rw [cstr_ok_c_bytes, strip_keeps_nul_free hnul]
    rfl

theorem name_normalization_witness :
    ([113, 117] : List UInt8).contains 0 = false ∧
    c_bytes_of (sep :: [113, 117]) = c_bytes_of [113, 117] ∧
    with_name_as_cstr [113, 117] (fun c => .ok c) = .ok (c_bytes_of [113, 117]) :=
  ⟨by decide,
   (name_normalization [113, 117] (by decide)).1 (by decide),
   (name_normalization [113, 117] (by decide)).2.2 _ (fun c => .ok c)⟩

/-- Claim C7 fails as stated: the nul-free name "/q" (which already starts
with the separator) encodes to "/q\x00", while `'/'` followed by it,
"//q", encodes to "//q\x00" — the two encoded names differ. -/
theorem name_normalization_cex :
    ([47, 113] : List UInt8).contains 0 = false ∧
    c_bytes_of ((47 : UInt8) :: [47, 113]) ≠ c_bytes_of [47, 113] :=
  ⟨by decide, by decide⟩

/-- One outcome of an interruptible kernel call: either the call's return
value, or the `io::Error` read from errno after a `-1` return. -/
inductive Outcome (α : Type) where
  | success : α → Outcome α
  | failure : IOError → Outcome α
deriving DecidableEq, Repr

/-- Whether this outcome is the signal-interrupted condition the retry
macro loops on. -/
def Outcome.isEintr {α : Type} : Outcome α → Bool
  | .success _ => false
  | .failure e => e.kind == .interrupted

/-- The `Result` a non-retried call with this outcome would produce. -/
def Outcome.toResult {α : Type} : Outcome α → Except IOError α
  | .success v => .ok v
  | .failure e => .error e

/-- Embedding of the `retry_if_interrupted!` macro (src/lib.rs lines
602-616): the kernel call is modelled as the sequence of outcomes its
successive invocations produce.  `none` models the loop never finishing
(every invocation keeps being interrupted). -/
def retry_if_interrupted {α : Type} : List (Outcome α) → Option (Except IOError α)
  | [] => none
  | .success v :: _ => some (.ok v)
  | .failure e :: rest =>
    if e.kind = .interrupted then retry_if_interrupted rest
    else some (.error e)

/-- Embedding of `PosixMq::send` (src/lib.rs lines 742-746): the `mq_send`
return value is discarded and `Ok(())` returned. -/
def PosixMq.send (calls : List (Outcome Int)) : Option (Except IOError Unit) :=
  (retry_if_interrupted calls).map (fun r => r.map (fun _ => ()))

/-- Embedding of `PosixMq::recv` (src/lib.rs lines 758-767): each `mq_receive`
success carries the received priority and the returned length. -/
def PosixMq.recv (calls : List (Outcome (Nat × Nat))) :
    Option (Except IOError (Nat × Nat)) :=
  retry_if_interrupted calls

/-- Embedding of `PosixMq::timedsend` (src/lib.rs lines 778-784), the
common path of `send_timeout` and `send_deadline`: same retry loop around
`mq_timedsend`. -/
def PosixMq.timedsend (calls : List (Outcome Int)) : Option (Except IOError Unit) :=
  (retry_if_interrupted calls).map (fun r => r.map (fun _ => ()))

/-- Embedding of `PosixMq::timedreceive` (src/lib.rs lines 849-860), the
common path of `recv_timeout` and `recv_deadline`. -/
def PosixMq.timedreceive (calls : List (Outcome (Nat × Nat))) :
    Option (Except IOError (Nat × Nat)) :=
  retry_if_interrupted calls

theorem retry_first_non_eintr {α : Type} (calls : List (Outcome α)) :
    retry_if_interrupted calls =
      (calls.find? (fun o => ! o.isEintr )).map Outcome.toResult := by
  induction calls with
  | nil => rfl
  | cons c rest ih =>
    cases c with
    | success v =>
      simp [retry_if_interrupted, Outcome.isEintr, Outcome.toResult, List.find?_cons]
    | failure e =>
      by_cases h : e.kind = .interrupted
      · rw [retry_if_interrupted, if_pos h, ih]
        have : (Outcome.failure e (α := α)).isEintr = true := by
          simp [Outcome.isEintr, h]
        simp [List.find?_cons, this]
      · rw [retry_if_interrupted, if_neg h]
        have : (Outcome.failure e (α := α)).isEintr = false := by
          simp [Outcome.isEintr]
          exact h
        simp [List.find?_cons, this, Outcome.toResult]

theorem retry_no_eintr_result {α : Type} {calls : List (Outcome α)}
    {r : Except IOError α} (h : retry_if_interrupted calls = some r) :
    ∀ e, r = .error e → e.kind ≠ .interrupted := by
  intro e he hkind
  rw [retry_first_non_eintr] at h
  rcases Option.map_eq_some'.mp h with ⟨o, hfind, hres⟩
  have hp := List.find?_some hfind
  subst he
  cases o with
  | success v => exact Except.noConfusion hres
  | failure e' =>
    have : e' = e := by
      simpa [Outcome.toResult, Except.error.injEq] using hres
    subst this
    simp [Outcome.isEintr, hkind] at hp

/-- Claim C5: `send` and `recv` (and the timed variants built on the same
retry macro) never return an error of kind `Interrupted`: modelling the
kernel call as a sequence of outcomes, the retry loop skips every
interrupted outcome and returns the first outcome that is a success or a
non-interrupted error, so any error the caller sees is non-interrupted. -/
theorem send_recv_never_eintr (sc tc : List (Outcome Int))
    (rc trc : List (Outcome (Nat × Nat))) :
    (retry_if_interrupted sc =
      (sc.find? (fun o => ! o.isEintr )).map Outcome.toResult) ∧
    (∀ r, PosixMq.send sc = some r → ∀ e, r = .error e → e.kind ≠ .interrupted) ∧
    (∀ r, PosixMq.recv rc = some r → ∀ e, r = .error e → e.kind ≠ .interrupted) ∧
    (∀ r, PosixMq.timedsend tc = some r → ∀ e, r = .error e → e.kind ≠ .interrupted) ∧
    (∀ r, PosixMq.timedreceive trc = some r →
      ∀ e, r = .error e → e.kind ≠ .interrupted) := by
  refine ⟨retry_first_non_eintr sc, ?_, ?_, ?_, ?_⟩
  · intro r hr e he
    unfold PosixMq.send at hr
    rcases Option.map_eq_some'.mp hr with ⟨r0, hr0, hmap⟩
    subst he
    cases r0 with
    | ok v => simp [Except.map] at hmap
    | error e0 =>
      have : e0 = e := by simpa [Except.map, Except.error.injEq] using hmap
      subst this
      exact retry_no_eintr_result hr0 e0 rfl
  · intro r hr e he
    exact retry_no_eintr_result hr e he
  · intro r hr e he
    unfold PosixMq.timedsend at hr
    rcases Option.map_eq_some'.mp hr with ⟨r0, hr0, hmap⟩
    subst he
    cases r0 with
    | ok v => simp [Except.map] at hmap
    | error e0 =>
      have : e0 = e := by simpa [Except.map, Except.error.injEq] using hmap
      subst this
      exact retry_no_eintr_result hr0 e0 rfl
  · intro r hr e he
    exact retry_no_eintr_result hr e he

theorem send_recv_never_eintr_witness :
    retry_if_interrupted [Outcome.failure ⟨.interrupted, "eintr"⟩,
        Outcome.failure ⟨.wouldBlock, "eagain"⟩] =
      (([Outcome.failure ⟨.interrupted, "eintr"⟩,
        Outcome.failure ⟨.wouldBlock, "eagain"⟩].find?
          (fun o => ! Outcome.isEintr (α := Int) o )).map Outcome.toResult) ∧
    (9 : Nat) = 9 :=
  ⟨(send_recv_never_eintr [Outcome.failure ⟨.interrupted, "eintr"⟩,
      Outcome.failure ⟨.wouldBlock, "eagain"⟩] [] [] []).1, rfl⟩

/-- `Attributes` (src/lib.rs lines 576-589). -/
structure Attributes where
  max_msg_len : Nat
  capacity : Nat
  current_messages : Nat
  nonblocking : Bool
deriving DecidableEq, Repr

/-- Linux `libc::O_NONBLOCK`. -/
def O_NONBLOCK : Int := 2048

/-- Rust `as usize` applied to a kernel signed `long`: reduce into
`[0, 2^64)`. -/
def usize_of_long (x : Int) : Nat := (x % 18446744073709551616).toNat

/-- Embedding of `PosixMq::attributes` (src/lib.rs lines 979-991);
`mq_getattr` is the outcome of the kernel call (its `-1` /
`last_os_error` convention folded into the `Except`). -/
def PosixMq.attributes (mq_getattr : Except IOError MqAttr) :
    Except IOError Attributes :=
  match mq_getattr with
  | .error e => .error e
  | .ok attrs =>
    .ok ⟨usize_of_long attrs.mq_msgsize, usize_of_long attrs.mq_maxmsg,
      usize_of_long attrs.mq_curmsgs, Int.land attrs.mq_flags O_NONBLOCK != 0⟩

/-- The borrowed-queue iterator `Iter` (src/lib.rs lines 1302-1307),
reduced to the state its `next` reads: the cached `max_msg_len` (the
borrowed handle itself only routes the `recv` call, which is modelled by
its outcome). -/
structure Iter where
  max_msg_len : Nat
deriving DecidableEq, Repr

/-- The owning iterator `IntoIter` (src/lib.rs lines 1334-1337). -/
structure IntoIter where
  max_msg_len : Nat
deriving DecidableEq, Repr

/-- What one `next()` call does: yield a message, end the sequence
(return `None`), or panic with the receive error. -/
inductive NextStep where
  | yields (priority : Nat) (payload : List UInt8)
  | ends
  | panics (e : IOError)
deriving DecidableEq, Repr

/-- Embedding of `Iter::next` (src/lib.rs lines 1309-1322).  `res` is the
result of `recv` on the freshly allocated zeroed buffer of length
`self.max_msg_len`, and `buf` the buffer contents after that call. -/
def Iter.next (it : Iter) (res : Except IOError (Nat × Nat))
    (buf : List UInt8) : NextStep :=
  match res with
  | .error e => if e.kind = .wouldBlock then .ends else .panics e
  | .ok (priority, len) => .yields priority (buf.take len)

/-- Embedding of `IntoIter::next` (src/lib.rs lines 1339-1348): it builds
a borrowed `Iter` over the same queue with the same cached `max_msg_len`
and delegates to its `next`. -/
def IntoIter.next (it : IntoIter) (res : Except IOError (Nat × Nat))
    (buf : List UInt8) : NextStep :=
  Iter.next ⟨it.max_msg_len⟩ res buf

/-- Construction of `Iter` by `IntoIterator for &PosixMq` (src/lib.rs
lines 1249-1261); `attrsRes` is the `attributes()` result at construction
time. -/
def iter_of_attributes (attrsRes : Except IOError Attributes) : Iter :=
  ⟨match attrsRes with
    | .ok attrs => attrs.max_msg_len
    | .error _ => 0⟩

/-- Construction of `IntoIter` by `IntoIterator for PosixMq` (src/lib.rs
lines 1235-1247). -/
def intoiter_of_attributes (attrsRes : Except IOError Attributes) : IntoIter :=
  ⟨match attrsRes with
    | .ok attrs => attrs.max_msg_len
    | .error _ => 0⟩

/-- Claim C8: `Iter::next()` returns `None` iff `recv` on the freshly
allocated buffer of the cached `max_msg_len` fails with `WouldBlock`;
when `recv` returns `Ok((priority, len))` it yields `Some((priority,
payload))` with `payload` exactly the first `len` bytes of the buffer;
and the cached `max_msg_len` equals the `attributes().max_msg_len`
queried once at construction, or `0` when that query failed. -/
theorem iter_next_spec (attrsRes : Except IOError Attributes)
    (res : Except IOError (Nat × Nat)) (buf : List UInt8)
    (hbuf : buf.length = (iter_of_attributes attrsRes).max_msg_len) :
    ((iter_of_attributes attrsRes).next res buf = .ends ↔
      ∃ e, res = .error e ∧ e.kind = .wouldBlock) ∧
    (∀ p len, res = .ok (p, len) →
      (iter_of_attributes attrsRes).next res buf = .yields p (buf.take len)) ∧
    (∀ a, attrsRes = .ok a →
      (iter_of_attributes attrsRes).max_msg_len = a.max_msg_len) ∧
    (∀ e, attrsRes = .error e →
      (iter_of_attributes attrsRes).max_msg_len = 0) := by
  refine ⟨?_, ?_, ?_, ?_⟩
  · cases res with
    | error e =>
      by_cases hk : e.kind = .wouldBlock
      · simp [Iter.next, hk]
      · simp [Iter.next, hk]
    | ok pl =>
      obtain ⟨p, len⟩ := pl
      simp [Iter.next]
  · intro p len hres
    subst hres
    rfl
  · intro a ha
    subst ha
    rfl
  · intro e he
    subst he
    rfl

theorem iter_next_spec_witness :
    (List.replicate 10 (0 : UInt8)).length =
      (iter_of_attributes (.ok ⟨10, 5, 0, true⟩)).max_msg_len ∧
    ((iter_of_attributes (.ok ⟨10, 5, 0, true⟩)).next
        (.error ⟨.wouldBlock, "eagain"⟩) (List.replicate 10 0) = .ends ↔
      ∃ e, (.error ⟨.wouldBlock, "eagain"⟩ : Except IOError (Nat × Nat)) = .error e ∧
        e.kind = .wouldBlock) :=
  ⟨by decide,
   (iter_next_spec (.ok ⟨10, 5, 0, true⟩) (.error ⟨.wouldBlock, "eagain"⟩)
      (List.replicate 10 0) (by decide)).1⟩

/-- Claim C10: `IntoIter::next` is observationally equal to `Iter::next`
on a borrowed iterator over the same queue with the same cached
`max_msg_len`: for every receive outcome and buffer both return the same
step, and the owning construction caches the same `max_msg_len` as the
borrowing one. -/
theorem intoiter_next_eq_iter_next (m : Nat) (res : Except IOError (Nat × Nat))
    (buf : List UInt8) (attrsRes : Except IOError Attributes) :
    IntoIter.next ⟨m⟩ res buf = Iter.next ⟨m⟩ res buf ∧
    (intoiter_of_attributes attrsRes).max_msg_len =
      (iter_of_attributes attrsRes).max_msg_len :=
  ⟨rfl, rfl⟩

/-- Claim C9 (amended): `open_c` passes a null capacities pointer to
`mq_open` iff both the configured capacity and `max_msg_len` are zero;
otherwise it passes a descriptor carrying the configured capacity as
`mq_maxmsg` and `max_msg_len` as `mq_msgsize`, each cast to the kernel's
signed long — equal to the configured value exactly when it is below
2^63 (the `as KernelLong` cast wraps larger `usize` values).  The kernel
call receives exactly this pointer together with the flags and mode. -/
theorem open_c_capacities_spec (opts : OpenOptions) :
    (open_c_capacities opts = none ↔
      opts.capacity = 0 ∧ opts.max_msg_len = 0) ∧
    (∀ a, open_c_capacities opts = some a →
      a.mq_maxmsg = wrap64 opts.capacity ∧
      a.mq_msgsize = wrap64 opts.max_msg_len ∧
      (opts.capacity < 9223372036854775808 → a.mq_maxmsg = opts.capacity) ∧
      (opts.max_msg_len < 9223372036854775808 → a.mq_msgsize = opts.max_msg_len)) ∧
    (∀ name mq_open, OpenOptions.open_c opts name mq_open =
      mq_open name opts.flags opts.mode (open_c_capacities opts)) := by
  refine ⟨?_, ?_, fun name mq_open => rfl⟩
  · unfold open_c_capacities
    split
    · rename_i hc
      simp only [reduceCtorEq, false_iff]
      intro hz
      rcases hc with hc | hc
      · exact hc hz.1
      · exact hc hz.2
    · rename_i hc
      push_neg at hc
      simp [hc.1, hc.2]
  · intro a ha
    unfold open_c_capacities at ha
    split at ha
    · rw [Option.some.injEq] at ha
      subst ha
      refine ⟨rfl, rfl, ?_, ?_⟩
      · intro hlt
        exact wrap64_eq_self (by simp only [i64Min]; omega)
          (by simp only [i64Max]; omega)
      · intro hlt
        exact wrap64_eq_self (by simp only [i64Min]; omega)
          (by simp only [i64Max]; omega)
    · exact Option.noConfusion ha

theorem open_c_capacities_spec_witness :
    open_c_capacities ⟨2, 384, 4, 8192⟩ = some ⟨0, 4, 8192, 0⟩ ∧
    (⟨0, 4, 8192, 0⟩ : MqAttr).mq_maxmsg = wrap64 ((4 : Nat) : Int) ∧
    (⟨0, 4, 8192, 0⟩ : MqAttr).mq_msgsize = wrap64 ((8192 : Nat) : Int) :=
  ⟨by decide,
   ((open_c_capacities_spec ⟨2, 384, 4, 8192⟩).2.1 ⟨0, 4, 8192, 0⟩ (by decide)).1,
   ((open_c_capacities_spec ⟨2, 384, 4, 8192⟩).2.1 ⟨0, 4, 8192, 0⟩ (by decide)).2.1⟩

/-- Claim C9 fails as stated for a capacity that is not representable in
the kernel's signed long: configuring capacity `2^63` (a valid `usize`)
populates `mq_maxmsg` with the wrapped value `-2^63`, not with the
configured `2^63`. -/
theorem open_c_capacities_cex :
    open_c_capacities ⟨0, 384, 9223372036854775808, 0⟩ =
      some ⟨0, -9223372036854775808, 0, 0⟩ ∧
    ((-9223372036854775808 : Int) ≠ ((9223372036854775808 : Nat) : Int)) :=
  ⟨by decide, by decide⟩

/-- The build targets the crate's `cfg` attributes distinguish where it
matters for close-on-exec control. -/
inductive Target where
  | linux
  | freebsd
  | netbsd
  | dragonfly
  | illumos
  | solaris
  | vxworks
deriving DecidableEq, Repr

/-- The `cfg` gate of `is_cloexec` (src/lib.rs lines 1083-1098): the
targets where a file descriptor can be extracted and `fcntl(F_GETFD)`
used. -/
def has_cloexec_query : Target → Bool
  | .linux => true
  | .freebsd => true
  | .netbsd => true
  | .dragonfly => true
  | _ => false

/-- `libc::FD_CLOEXEC`. -/
def FD_CLOEXEC : Nat := 1

/-- Embedding of `PosixMq::is_cloexec` (src/lib.rs lines 1082-1103).
`fcntl_getfd` is the outcome of `fcntl(fd, F_GETFD)` on the supported
targets: the returned flag bits, or the `io::Error` read from errno after
a `-1` return. -/
def PosixMq.is_cloexec (target : Target) (fcntl_getfd : Except IOError Nat) :
    Except IOError Bool :=
  if has_cloexec_query target then
    match fcntl_getfd with
    | .error e => .error e
    | .ok flags => .ok (flags &&& FD_CLOEXEC != 0)
  else
    .error ⟨.other, "close-on-exec information is not available"⟩

/-- Claim C1 (amended): on build targets without descriptor-extraction
support, `is_cloexec()` does not return the conservative `Ok(true)`: it
fails with an `Other`-kind error ("close-on-exec information is not
available").  The conservative `true` is only what the documentation
advises callers to substitute for an error, not what the function
returns. -/
theorem is_cloexec_unsupported (target : Target)
    (fcntl_getfd : Except IOError Nat) (h : has_cloexec_query target = false) :
    PosixMq.is_cloexec target fcntl_getfd =
      .error ⟨.other, "close-on-exec information is not available"⟩ := by
  unfold PosixMq.is_cloexec
  rw [h]
  simp

theorem is_cloexec_unsupported_witness :
    has_cloexec_query .illumos = false ∧
    PosixMq.is_cloexec .illumos (.ok 1) =
      .error ⟨.other, "close-on-exec information is not available"⟩ :=
  ⟨by decide, is_cloexec_unsupported .illumos (.ok 1) (by decide)⟩

/-- Claim C1 fails as stated: on Illumos (a target without
descriptor-extraction support) `is_cloexec()` returns an `Other`-kind
error rather than `Ok(true)`, even when the descriptor is healthy. -/
theorem is_cloexec_unsupported_cex :
    PosixMq.is_cloexec .illumos (.ok 1) ≠ .ok true ∧
    PosixMq.is_cloexec .illumos (.ok 1) =
      .error ⟨.other, "close-on-exec information is not available"⟩ :=
  ⟨by decide, by decide⟩
